/-
Verification of the YOLO inference notebook (Mod04/01-Yolo).

The notebook's own logic consists of:
  * `detect_objects`: letterbox preprocessing (ratio, rounding, Resize, Pad),
    followed by an external forward pass and non-max suppression;
  * `show_objects`: the coordinate-rescaling arithmetic (pad_x, pad_y,
    unpad_w, unpad_h, pad // 2 floor division) and per-class color sampling;
  * the per-image processing loop, which prints len(detections) and calls
    show_objects.

Python float arithmetic is embedded as exact rational arithmetic (ℚ);
Python's `//` on floats is floor, `int()` is truncation toward zero, and
`round()` is round-half-to-even, all modelled explicitly below.
-/
import Mathlib

namespace Yolo

/-- Rational floor, as Python float floor division uses it
(`a // b = floor(a/b)`). -/
def ratFloor (q : ℚ) : ℤ := ⌊q⌋

/-- Python `int()` truncation toward zero on a rational. -/
def pyTrunc (q : ℚ) : ℤ := if 0 ≤ q then ⌊q⌋ else ⌈q⌉

/-- Python 3 `round()`: round half to even. -/
def pyRound (q : ℚ) : ℤ :=
  if q - (⌊q⌋ : ℚ) < 1/2 then ⌊q⌋
  else if 1/2 < q - (⌊q⌋ : ℚ) then ⌊q⌋ + 1
  else if ⌊q⌋ % 2 = 0 then ⌊q⌋ else ⌊q⌋ + 1

/-- Network input size set in the notebook: `img_size = 416`. -/
def img_size : ℚ := 416

/-! ## Preprocessing in `detect_objects`

`ratio = min(img_size/img.size[0], img_size/img.size[1])` with
`img.size = (width, height)`; `imw = round(width * ratio)`,
`imh = round(height * ratio)`; then
`transforms.Pad((max(int((imh-imw)/2),0), max(int((imw-imh)/2),0),
max(int((imh-imw)/2),0), max(int((imw-imh)/2),0)), (128,128,128))`
pads left/top/right/bottom around the `(imh, imw)`-resized image. -/

/-- Scale ratio computed in `detect_objects`. -/
def ratio (w h : ℕ) : ℚ := min (img_size / (w : ℚ)) (img_size / (h : ℚ))

/-- Resized width `imw = round(img.size[0] * ratio)`. -/
def imw (w h : ℕ) : ℤ := pyRound ((w : ℚ) * ratio w h)

/-- Resized height `imh = round(img.size[1] * ratio)`. -/
def imh (w h : ℕ) : ℤ := pyRound ((h : ℚ) * ratio w h)

/-- Horizontal padding per side: `max(int((imh-imw)/2), 0)`. -/
def padLeft (w h : ℕ) : ℤ := max (pyTrunc (((imh w h - imw w h : ℤ) : ℚ) / 2)) 0

/-- Vertical padding per side: `max(int((imw-imh)/2), 0)`. -/
def padTop (w h : ℕ) : ℤ := max (pyTrunc (((imw w h - imh w h : ℤ) : ℚ) / 2)) 0

/-- Width of the tensor fed to the network: resized width plus the two
horizontal pads. -/
def netInputW (w h : ℕ) : ℤ := imw w h + 2 * padLeft w h

/-- Height of the tensor fed to the network: resized height plus the two
vertical pads. -/
def netInputH (w h : ℕ) : ℤ := imh w h + 2 * padTop w h

/-! ## Data model -/

/-- One detection row as produced by `non_max_suppression`:
`x1, y1, x2, y2, conf, cls_conf, cls_pred`, in network-input coordinates. -/
structure Det where
  x1 : ℚ
  y1 : ℚ
  x2 : ℚ
  y2 : ℚ
  conf : ℚ
  clsConf : ℚ
  clsPred : ℤ
deriving DecidableEq, Repr

/-- The loaded Darknet model as the notebook touches it: an opaque weight
vector plus the two mode bits `detect_objects` manipulates
(`model.eval()` clears `training`; `model.cuda()` sets device placement). -/
structure PyModel where
  weights : List ℚ
  training : Bool
  onCuda : Bool
deriving DecidableEq, Repr

/-- An input image: its pixel size (PIL `img.size = (width, height)`,
numpy `img.shape = (height, width, 3)`). -/
structure Img where
  width : ℕ
  height : ℕ
deriving DecidableEq, Repr

/-- Embedding of `detect_objects(model, img)`.  The forward pass and
`non_max_suppression` live in the external library; they are the abstract
function `fwd`, applied to the (unchanged) weights and the
deterministically preprocessed image.  The returned pair is (model as
mutated by the call, `detections[0]`). -/
def detectObjects (fwd : List ℚ → Img → Option (List Det))
    (cudaAvailable : Bool) (model : PyModel) (img : Img) :
    PyModel × Option (List Det) :=
  let m1 := if cudaAvailable then { model with onCuda := true } else model
  let m2 := { m1 with training := false }
  (m2, fwd m2.weights img)

/-! ## Rescaling arithmetic in `show_objects`

`img = np.array(img)` so `img.shape[0]` is the height and `img.shape[1]`
the width.  The code reads:
  pad_x = max(img.shape[0] - img.shape[1], 0) * (img_size / max(img.shape))
  pad_y = max(img.shape[1] - img.shape[0], 0) * (img_size / max(img.shape))
  unpad_h = img_size - pad_y
  unpad_w = img_size - pad_x
  box_h = ((y2 - y1) / unpad_h) * img.shape[0]
  box_w = ((x2 - x1) / unpad_w) * img.shape[1]
  y1 = ((y1 - pad_y // 2) / unpad_h) * img.shape[0]
  x1 = ((x1 - pad_x // 2) / unpad_w) * img.shape[1]
All values are Python floats; `//` is float floor division. -/

/-- `pad_x` for an image of width `w`, height `h`. -/
def padX (w h : ℚ) : ℚ := max (h - w) 0 * (img_size / max h w)

/-- `pad_y` for an image of width `w`, height `h`. -/
def padY (w h : ℚ) : ℚ := max (w - h) 0 * (img_size / max h w)

/-- `unpad_w = img_size - pad_x`. -/
def unpadW (w h : ℚ) : ℚ := img_size - padX w h

/-- `unpad_h = img_size - pad_y`. -/
def unpadH (w h : ℚ) : ℚ := img_size - padY w h

/-- `box_w = ((x2 - x1) / unpad_w) * img.shape[1]`. -/
def boxW (w h x1 x2 : ℚ) : ℚ := (x2 - x1) / unpadW w h * w

/-- `box_h = ((y2 - y1) / unpad_h) * img.shape[0]`. -/
def boxH (w h y1 y2 : ℚ) : ℚ := (y2 - y1) / unpadH w h * h

/-- Rescaled left edge `x1 = ((x1 - pad_x // 2) / unpad_w) * img.shape[1]`. -/
def rescaleX1 (w h x1 : ℚ) : ℚ :=
  (x1 - (ratFloor (padX w h / 2) : ℚ)) / unpadW w h * w

/-- Rescaled top edge `y1 = ((y1 - pad_y // 2) / unpad_h) * img.shape[0]`. -/
def rescaleY1 (w h y1 : ℚ) : ℚ :=
  (y1 - (ratFloor (padY w h / 2) : ℚ)) / unpadH w h * h

/-! ## Color handling in `show_objects`

`colors = [cmap(i) for i in np.linspace(0, 1, 20)]` over the 20-entry
`tab20b` colormap: point `i = k/19` maps to palette entry
`min(int(k/19 * 20), 19)` (matplotlib sends `x = 1.0` to the last entry).
The 20 palette entries of tab20b are pairwise distinct, so a color is
identified with its palette index here.
`unique_labels = detections[:, -1].cpu().unique()` is the sorted list of
distinct predicted classes, and
`bbox_colors = random.sample(colors, n_cls_preds)` draws `n_cls_preds`
elements at pairwise distinct positions of `colors`, raising ValueError
when `n_cls_preds > len(colors) = 20`. -/

/-- Palette indices of the 20 sampled tab20b colors. -/
def colorsIdx : List ℕ := (List.range 20).map (fun k => min (k * 20 / 19) 19)

/-- `unique_labels`: the sorted distinct predicted class labels of a
detection list (torch `.unique()` sorts). -/
def uniqueLabels (dets : List Det) : List ℤ :=
  List.insertionSort (fun a b => a ≤ b) (dets.map Det.clsPred).dedup

/-- One drawn rectangle: position, size, color (palette index of its class
color) and the predicted class. -/
structure Rect where
  x : ℚ
  y : ℚ
  w : ℚ
  h : ℚ
  color : ℕ
  cls : ℤ
deriving DecidableEq, Repr

/-- The rectangle `show_objects` draws for one detection:
`bbox_colors[int(np.where(unique_labels == int(cls_pred))[0])]` with
`bbox_colors = random.sample(colors, n_cls_preds)` modelled by the position
map `s` into `colorsIdx`. -/
def mkRect (s : ℕ → ℕ) (w h : ℚ) (ul : List ℤ) (d : Det) : Rect :=
  { x := rescaleX1 w h d.x1
    y := rescaleY1 w h d.y1
    w := boxW w h d.x1 d.x2
    h := boxH w h d.y1 d.y2
    color := colorsIdx.getD (s (ul.indexOf d.clsPred)) 0
    cls := d.clsPred }

/-- Embedding of `show_objects(img, detections)` for an image of width `w`
and height `h`: `None` detections skip the drawing block; otherwise
`random.sample(colors, n_cls_preds)` raises ValueError when there are more
than 20 unique classes, and else one rectangle is drawn per detection. -/
def showObjects (s : ℕ → ℕ) (w h : ℚ) (detections : Option (List Det)) :
    Except String (List Rect) :=
  match detections with
  | none => .ok []
  | some dets =>
    if 20 < (uniqueLabels dets).length then
      .error "ValueError: Sample larger than population or is negative"
    else
      .ok (dets.map (mkRect s w h (uniqueLabels dets)))

/-! ## The per-image processing loop

    detections = detect_objects(model, image)
    print('Found {} objects in {}'.format(len(detections), image_file))
    show_objects(image, detections)

`detect_objects` returns `detections[0]`, which is `None` for an image in
which nothing passes the confidence threshold; `len(None)` raises
TypeError. -/

/-- `len(detections)` as the loop's print statement evaluates it. -/
def lenLine : Option (List Det) → Except String ℕ
  | none => .error "TypeError: object of type NoneType has no len()"
  | some l => .ok l.length

/-- One iteration of the test-image loop after `detect_objects` returned
`dets`: print the count, then draw.  Returns the printed count and the
drawn rectangles, or the first uncaught exception. -/
def processImage (s : ℕ → ℕ) (w h : ℚ) (dets : Option (List Det)) :
    Except String (ℕ × List Rect) := do
  let n ← lenLine dets
  let rs ← showObjects s w h dets
  pure (n, rs)

/-! ## Basic lemmas about the Python primitives -/

lemma pyRound_intCast (n : ℤ) : pyRound (n : ℚ) = n := by
  unfold pyRound
  rw [Int.floor_intCast]
  norm_num

lemma pyRound_eq_low {q : ℚ} {n : ℤ} (h1 : (n : ℚ) ≤ q) (h2 : q < (n : ℚ) + 1/2) :
    pyRound q = n := by
  have hf : ⌊q⌋ = n := Int.floor_eq_iff.mpr ⟨h1, by linarith⟩
  unfold pyRound
  rw [hf, if_pos (by linarith)]

lemma pyRound_eq_high {q : ℚ} {n : ℤ} (h1 : (n : ℚ) + 1/2 < q) (h2 : q < (n : ℚ) + 1) :
    pyRound q = n + 1 := by
  have hf : ⌊q⌋ = n := Int.floor_eq_iff.mpr ⟨by linarith, by linarith⟩
  unfold pyRound
  rw [hf, if_neg (by linarith), if_pos (by linarith)]

lemma pyRound_cases (q : ℚ) :
    pyRound q = ⌊q⌋ ∨ (pyRound q = ⌊q⌋ + 1 ∧ 1/2 ≤ q - (⌊q⌋ : ℚ)) := by
  unfold pyRound
  split
  · exact Or.inl rfl
  · next h =>
    split
    · next h2 => exact Or.inr ⟨rfl, le_of_lt h2⟩
    · split
      · exact Or.inl rfl
      · exact Or.inr ⟨rfl, not_lt.mp h⟩

lemma pyRound_le {q : ℚ} {n : ℤ} (h : q ≤ (n : ℚ)) : pyRound q ≤ n := by
  rcases pyRound_cases q with hc | ⟨hc, hr⟩
  · rw [hc]
    exact_mod_cast le_trans (Int.floor_le_floor h) (le_of_eq (Int.floor_intCast n))
  · rw [hc]
    have hfn : (⌊q⌋ : ℚ) < (n : ℚ) := by linarith
    exact Int.add_one_le_iff.mpr (by exact_mod_cast hfn)

lemma pyTrunc_of_nonneg {q : ℚ} (h : 0 ≤ q) : pyTrunc q = ⌊q⌋ := if_pos h

lemma pyTrunc_nonpos {q : ℚ} (h : q ≤ 0) : pyTrunc q ≤ 0 := by
  unfold pyTrunc
  split
  · exact Int.floor_nonpos h
  · exact Int.ceil_le.mpr (by exact_mod_cast h)

/-! ## Lemmas about the rescaling arithmetic of `show_objects` -/

lemma padX_nonneg {w h : ℚ} (hh : 0 < h) : 0 ≤ padX w h := by
  unfold padX
  apply mul_nonneg (le_max_right _ _)
  apply div_nonneg (by norm_num [img_size])
  exact le_trans hh.le (le_max_left _ _)

lemma padX_lt {w h : ℚ} (hw : 0 < w) (hh : 0 < h) : padX w h < 416 := by
  unfold padX img_size
  rcases le_total h w with hle | hle
  · rw [max_eq_right (sub_nonpos.mpr hle), zero_mul]
    norm_num
  · rw [max_eq_left (sub_nonneg.mpr hle), max_eq_left hle]
    have hd : 0 < (416 : ℚ) / h := by positivity
    calc (h - w) * (416 / h) < h * (416 / h) := by
          exact mul_lt_mul_of_pos_right (by linarith) hd
    _ = 416 := by field_simp

lemma padY_eq_padX_swap (w h : ℚ) : padY w h = padX h w := by
  unfold padY padX
  rw [max_comm h w]

lemma unpadH_eq_unpadW_swap (w h : ℚ) : unpadH w h = unpadW h w := by
  unfold unpadH unpadW
  rw [padY_eq_padX_swap]

lemma rescaleY1_eq_rescaleX1_swap (w h y1 : ℚ) : rescaleY1 w h y1 = rescaleX1 h w y1 := by
  unfold rescaleY1 rescaleX1
  rw [padY_eq_padX_swap, unpadH_eq_unpadW_swap]

lemma boxH_eq_boxW_swap (w h y1 y2 : ℚ) : boxH w h y1 y2 = boxW h w y1 y2 := by
  unfold boxH boxW
  rw [unpadH_eq_unpadW_swap]

/-- Core computation: the rescaled x-coordinate of a point at network
center 208 hits the image center `d / 2` exactly when the floor taken by
`pad // 2` is exact. -/
lemma rescale_center_iff {d p : ℚ} (hd : 0 < d) (hp : p < 416) :
    (208 - (⌊p / 2⌋ : ℚ)) / (416 - p) * d = d / 2 ↔ (⌊p / 2⌋ : ℚ) = p / 2 := by
  have hu : (0 : ℚ) < 416 - p := by linarith
  constructor
  · intro heq
    have heq2 : (208 - (⌊p / 2⌋ : ℚ)) / (416 - p) * d = 1 / 2 * d := by
      rw [heq]; ring
    have h3 : (208 - (⌊p / 2⌋ : ℚ)) / (416 - p) = 1 / 2 :=
      mul_right_cancel₀ hd.ne' heq2
    rw [div_eq_div_iff hu.ne' two_ne_zero] at h3
    linarith
  · intro hc
    rw [hc]
    field_simp
    ring

/-- Core computation: bounds of a rescaled box when the network box sits
inside the unpadded content region. -/
lemma rescale_bound {d p c a b : ℚ} (hd : 0 < d) (hp : p < 416)
    (hc : c ≤ a) (hb : b ≤ (416 - p) + c) :
    0 ≤ (a - c) / (416 - p) * d ∧
      (a - c) / (416 - p) * d + (b - a) / (416 - p) * d ≤ d := by
  have hu : (0 : ℚ) < 416 - p := by linarith
  constructor
  · exact mul_nonneg (div_nonneg (by linarith) hu.le) hd.le
  · have hsum : (a - c) / (416 - p) * d + (b - a) / (416 - p) * d
        = (b - c) / (416 - p) * d := by ring
    rw [hsum]
    have h1 : (b - c) / (416 - p) ≤ 1 := (div_le_one hu).mpr (by linarith)
    calc (b - c) / (416 - p) * d ≤ 1 * d := mul_le_mul_of_nonneg_right h1 hd.le
    _ = d := one_mul d

lemma padX_self (w : ℚ) : padX w w = 0 := by
  unfold padX
  simp

lemma rescaleX1_self (w x1 : ℚ) : rescaleX1 w w x1 = x1 * (w / img_size) := by
  unfold rescaleX1 unpadW ratFloor img_size
  rw [padX_self]
  norm_num
  ring

lemma boxW_self (w x1 x2 : ℚ) : boxW w w x1 x2 = (x2 - x1) * (w / img_size) := by
  unfold boxW unpadW img_size
  rw [padX_self]
  ring

lemma padX_400_500 : padX 400 500 = 416 / 5 := by
  unfold padX img_size
  rw [max_eq_left (by norm_num), max_eq_left (by norm_num)]
  norm_num

lemma padX_500_400 : padX 500 400 = 0 := by
  unfold padX img_size
  rw [max_eq_right (by norm_num)]
  ring

lemma padY_500_400 : padY 500 400 = 416 / 5 := by
  rw [padY_eq_padX_swap]
  exact padX_400_500

lemma ratFloor_half_padX_400_500 : ratFloor (padX 400 500 / 2) = 41 := by
  rw [padX_400_500]
  unfold ratFloor
  rw [Int.floor_eq_iff]
  constructor <;> norm_num

lemma ratFloor_half_padX_500_400 : ratFloor (padX 500 400 / 2) = 0 := by
  rw [padX_500_400]
  unfold ratFloor
  norm_num

lemma ratFloor_half_padY_500_400 : ratFloor (padY 500 400 / 2) = 41 := by
  rw [padY_500_400, show (416 : ℚ) / 5 = padX 400 500 from padX_400_500.symm]
  exact ratFloor_half_padX_400_500

lemma rescaleX1_center_iff {w h : ℚ} (hw : 0 < w) (hh : 0 < h) :
    (rescaleX1 w h (img_size / 2) = w / 2 ↔
      (ratFloor (padX w h / 2) : ℚ) = padX w h / 2) := by
  have key := rescale_center_iff (d := w) (p := padX w h) hw (padX_lt hw hh)
  unfold rescaleX1 unpadW ratFloor img_size
  norm_num at key ⊢
  exact key

/-- C1.  For a non-square image the rescaling arithmetic maps a detection
at the exact center of network-input space (208, 208) to the exact center
of the original image on a given axis exactly when the floor taken by
`pad // 2` on that axis loses nothing, i.e. `pad // 2 = pad / 2`; on the
unpadded axis the padding is zero and this always holds, but on the padded
axis it fails whenever `|h - w| * 416 / max(h, w)` is not an even integer,
so the claimed mapping does not hold for every non-square image. -/
theorem c1_center_mapping (w h : ℚ) (hw : 0 < w) (hh : 0 < h) (_hne : w ≠ h) :
    (rescaleX1 w h (img_size / 2) = w / 2 ↔
      (ratFloor (padX w h / 2) : ℚ) = padX w h / 2) ∧
    (rescaleY1 w h (img_size / 2) = h / 2 ↔
      (ratFloor (padY w h / 2) : ℚ) = padY w h / 2) := by
  refine ⟨rescaleX1_center_iff hw hh, ?_⟩
  rw [rescaleY1_eq_rescaleX1_swap, padY_eq_padX_swap]
  exact rescaleX1_center_iff hh hw

/-- Witness for C1 at the non-square image 300 × 400 with the detection at
network center (208, 208). -/
theorem c1_center_mapping_witness :
    (0 : ℚ) < 300 ∧ (0 : ℚ) < 400 ∧ ((300 : ℚ) ≠ 400) ∧
    ((rescaleX1 300 400 (img_size / 2) = 300 / 2 ↔
        (ratFloor (padX 300 400 / 2) : ℚ) = padX 300 400 / 2) ∧
      (rescaleY1 300 400 (img_size / 2) = 400 / 2 ↔
        (ratFloor (padY 300 400 / 2) : ℚ) = padY 300 400 / 2)) :=
  ⟨by norm_num, by norm_num, by norm_num,
    c1_center_mapping 300 400 (by norm_num) (by norm_num) (by norm_num)⟩

/-- Counterexample to C1 as stated: for the non-square 500 × 400 image the
vertical padding is 83.2, `pad_y // 2 = 41`, and the detection at network
center (208, 208) is rescaled to y = 20875/104 ≈ 200.72, not to the image
center y = 200. -/
theorem c1_counterexample :
    ((500 : ℚ) ≠ 400) ∧
    rescaleY1 500 400 (img_size / 2) = 20875 / 104 ∧
    rescaleY1 500 400 (img_size / 2) ≠ 400 / 2 := by
  have hval : rescaleY1 500 400 (img_size / 2) = 20875 / 104 := by
    rw [rescaleY1_eq_rescaleX1_swap]
    unfold rescaleX1 unpadW
    rw [ratFloor_half_padX_400_500, padX_400_500]
    norm_num [img_size]
  refine ⟨by norm_num, hval, ?_⟩
  rw [hval]
  norm_num

/-- C2.  For a square image both paddings are zero, but the rescaled
coordinates are the network coordinates scaled by `w / 416`, not the
network coordinates unchanged; they are unchanged exactly when the square
image already has side `img_size = 416`. -/
theorem c2_square_rescale (w x1 y1 x2 y2 : ℚ) :
    padX w w = 0 ∧ padY w w = 0 ∧
    rescaleX1 w w x1 = x1 * (w / img_size) ∧
    rescaleY1 w w y1 = y1 * (w / img_size) ∧
    boxW w w x1 x2 = (x2 - x1) * (w / img_size) ∧
    boxH w w y1 y2 = (y2 - y1) * (w / img_size) ∧
    (w = img_size → rescaleX1 w w x1 = x1 ∧ rescaleY1 w w y1 = y1) := by
  have hpy : padY w w = 0 := by rw [padY_eq_padX_swap]; exact padX_self w
  have hx : rescaleX1 w w x1 = x1 * (w / img_size) := rescaleX1_self w x1
  have hy : rescaleY1 w w y1 = y1 * (w / img_size) := by
    rw [rescaleY1_eq_rescaleX1_swap]; exact rescaleX1_self w y1
  refine ⟨padX_self w, hpy, hx, hy, boxW_self w x1 x2, ?_, ?_⟩
  · rw [boxH_eq_boxW_swap]; exact boxW_self w y1 y2
  · intro hw416
    subst hw416
    rw [hx, hy]
    norm_num [img_size]

/-- Witness for C2: for the 416 × 416 square image the rescaled
coordinates are literally unchanged. -/
theorem c2_square_rescale_witness :
    rescaleX1 416 416 100 = 100 ∧ rescaleY1 416 416 50 = 50 :=
  (c2_square_rescale 416 100 50 0 0).2.2.2.2.2.2 (by norm_num [img_size])

/-- Counterexample to C2 as stated: for a square 300 × 300 image the
paddings are zero, yet a detection edge at network coordinate 104 is
rescaled to 104 · 300/416 = 75 ≠ 104, so the rescaled coordinates are not
the network-space coordinates unchanged. -/
theorem c2_counterexample :
    padX 300 300 = 0 ∧ padY 300 300 = 0 ∧
    rescaleX1 300 300 104 = 75 ∧ ((75 : ℚ) ≠ 104) := by
  refine ⟨padX_self 300, ?_, ?_, by norm_num⟩
  · rw [padY_eq_padX_swap]; exact padX_self 300
  · rw [rescaleX1_self]
    norm_num [img_size]

/-- C7 amended.  The rescaling performs no clipping; a drawn box lies
within the image bounds provided its network-space coordinates lie inside
the unpadded content region `[pad // 2, unpad + pad // 2]` on each axis. -/
theorem c7_bounds (w h x1 y1 x2 y2 : ℚ) (hw : 0 < w) (hh : 0 < h)
    (hx1 : (ratFloor (padX w h / 2) : ℚ) ≤ x1)
    (hx2 : x2 ≤ unpadW w h + (ratFloor (padX w h / 2) : ℚ))
    (hy1 : (ratFloor (padY w h / 2) : ℚ) ≤ y1)
    (hy2 : y2 ≤ unpadH w h + (ratFloor (padY w h / 2) : ℚ)) :
    0 ≤ rescaleX1 w h x1 ∧ rescaleX1 w h x1 + boxW w h x1 x2 ≤ w ∧
      0 ≤ rescaleY1 w h y1 ∧ rescaleY1 w h y1 + boxH w h y1 y2 ≤ h := by
  unfold unpadW img_size at hx2
  unfold unpadH img_size at hy2
  have hx := rescale_bound (d := w) (p := padX w h)
    (c := (ratFloor (padX w h / 2) : ℚ)) (a := x1) (b := x2)
    hw (padX_lt hw hh) hx1 (by linarith)
  have hy := rescale_bound (d := h) (p := padX h w)
    (c := (ratFloor (padX h w / 2) : ℚ)) (a := y1) (b := y2)
    hh (padX_lt hh hw)
    (by rw [← padY_eq_padX_swap]; exact hy1)
    (by rw [← padY_eq_padX_swap]; linarith [padY_eq_padX_swap w h])
  refine ⟨?_, ?_, ?_, ?_⟩
  · exact hx.1
  · unfold rescaleX1 boxW unpadW img_size
    exact hx.2
  · rw [rescaleY1_eq_rescaleX1_swap]
    exact hy.1
  · rw [rescaleY1_eq_rescaleX1_swap, boxH_eq_boxW_swap]
    unfold rescaleX1 boxW unpadW img_size
    exact hy.2

/-- Witness for C7 at a 500 × 400 image with the network box
(50, 45) – (300, 300) inside the content region. -/
theorem c7_bounds_witness :
    ((ratFloor (padX 500 400 / 2) : ℚ) ≤ 50) ∧
    ((300 : ℚ) ≤ unpadW 500 400 + (ratFloor (padX 500 400 / 2) : ℚ)) ∧
    ((ratFloor (padY 500 400 / 2) : ℚ) ≤ 45) ∧
    ((300 : ℚ) ≤ unpadH 500 400 + (ratFloor (padY 500 400 / 2) : ℚ)) ∧
    (0 ≤ rescaleX1 500 400 50 ∧
      rescaleX1 500 400 50 + boxW 500 400 50 300 ≤ 500 ∧
      0 ≤ rescaleY1 500 400 45 ∧
      rescaleY1 500 400 45 + boxH 500 400 45 300 ≤ 400) := by
  have h1 : (ratFloor (padX 500 400 / 2) : ℚ) ≤ 50 := by
    rw [ratFloor_half_padX_500_400]; norm_num
  have h2 : (300 : ℚ) ≤ unpadW 500 400 + (ratFloor (padX 500 400 / 2) : ℚ) := by
    rw [ratFloor_half_padX_500_400]
    unfold unpadW
    rw [padX_500_400]
    norm_num [img_size]
  have h3 : (ratFloor (padY 500 400 / 2) : ℚ) ≤ 45 := by
    rw [ratFloor_half_padY_500_400]; norm_num
  have h4 : (300 : ℚ) ≤ unpadH 500 400 + (ratFloor (padY 500 400 / 2) : ℚ) := by
    rw [ratFloor_half_padY_500_400]
    unfold unpadH
    rw [padY_500_400]
    norm_num [img_size]
  exact ⟨h1, h2, h3, h4,
    c7_bounds 500 400 50 45 300 300 (by norm_num) (by norm_num) h1 h2 h3 h4⟩

/-- Counterexample to C7 as stated: on a 400 × 500 image the network box
with left edge x1 = 0 (a legal network-input coordinate) is rescaled to
x = −5125/104 < 0, outside the image; `show_objects` never clips. -/
theorem c7_counterexample :
    rescaleX1 400 500 0 = -5125 / 104 ∧ rescaleX1 400 500 0 < 0 := by
  have hval : rescaleX1 400 500 0 = -5125 / 104 := by
    unfold rescaleX1 unpadW
    rw [ratFloor_half_padX_400_500, padX_400_500]
    norm_num [img_size]
  exact ⟨hval, by rw [hval]; norm_num⟩

/-! ## Lemmas about the letterbox preprocessing of `detect_objects` -/

lemma ratio_eq_of_le {w h : ℕ} (hh : 0 < h) (hle : h ≤ w) :
    ratio w h = img_size / (w : ℚ) := by
  unfold ratio
  exact min_eq_left (div_le_div_of_nonneg_left (by norm_num [img_size])
    (by exact_mod_cast hh) (by exact_mod_cast hle))

lemma imw_eq_416 {w h : ℕ} (hw : 0 < w) (hh : 0 < h) (hle : h ≤ w) :
    imw w h = 416 := by
  unfold imw
  rw [ratio_eq_of_le hh hle]
  have hw0 : ((w : ℕ) : ℚ) ≠ 0 := Nat.cast_ne_zero.mpr hw.ne'
  rw [mul_comm, div_mul_cancel₀ _ hw0,
    show img_size = ((416 : ℤ) : ℚ) by norm_num [img_size]]
  exact pyRound_intCast 416

lemma imh_le_416 {w h : ℕ} (hw : 0 < w) (hh : 0 < h) (hle : h ≤ w) :
    imh w h ≤ 416 := by
  unfold imh
  rw [ratio_eq_of_le hh hle]
  apply pyRound_le
  have hd : (0 : ℚ) ≤ img_size / (w : ℚ) := by
    apply div_nonneg (by norm_num [img_size]) (by positivity)
  have h1 : (h : ℚ) * (img_size / w) ≤ (w : ℚ) * (img_size / w) :=
    mul_le_mul_of_nonneg_right (by exact_mod_cast hle) hd
  have hw0 : ((w : ℕ) : ℚ) ≠ 0 := Nat.cast_ne_zero.mpr hw.ne'
  have h2 : (w : ℚ) * (img_size / w) = img_size := by
    rw [mul_comm, div_mul_cancel₀ _ hw0]
  rw [h2] at h1
  calc (h : ℚ) * (img_size / w) ≤ img_size := h1
  _ = ((416 : ℤ) : ℚ) := by norm_num [img_size]

lemma padLeft_eq_zero {w h : ℕ} (hw : 0 < w) (hh : 0 < h) (hle : h ≤ w) :
    padLeft w h = 0 := by
  unfold padLeft
  apply max_eq_right
  apply pyTrunc_nonpos
  have hsub : imh w h - imw w h ≤ 0 := by
    rw [imw_eq_416 hw hh hle]
    have := imh_le_416 hw hh hle
    omega
  have hc : ((imh w h - imw w h : ℤ) : ℚ) ≤ 0 := by exact_mod_cast hsub
  rw [div_nonpos_iff]
  exact Or.inr ⟨hc, by norm_num⟩

lemma floor_intCast_div_two (t : ℤ) : ⌊((t : ℚ)) / 2⌋ = t / 2 := by
  have := Rat.floor_intCast_div_natCast t 2
  simpa using this

lemma padTop_eq {w h : ℕ} (hw : 0 < w) (hh : 0 < h) (hle : h ≤ w) :
    padTop w h = (416 - imh w h) / 2 := by
  unfold padTop
  rw [imw_eq_416 hw hh hle]
  have ht : (0 : ℤ) ≤ 416 - imh w h := by
    have := imh_le_416 hw hh hle; omega
  have htq : (0 : ℚ) ≤ ((416 - imh w h : ℤ) : ℚ) / 2 := by
    apply div_nonneg (by exact_mod_cast ht) (by norm_num)
  rw [pyTrunc_of_nonneg htq, floor_intCast_div_two]
  exact max_eq_left (Int.ediv_nonneg ht (by norm_num))

lemma netInputW_eq {w h : ℕ} (hw : 0 < w) (hh : 0 < h) (hle : h ≤ w) :
    netInputW w h = 416 := by
  unfold netInputW
  rw [imw_eq_416 hw hh hle, padLeft_eq_zero hw hh hle]
  norm_num

lemma netInputH_eq {w h : ℕ} (hw : 0 < w) (hh : 0 < h) (hle : h ≤ w) :
    netInputH w h = 416 - (416 - imh w h) % 2 := by
  unfold netInputH
  rw [padTop_eq hw hh hle]
  omega

lemma ratio_comm (w h : ℕ) : ratio w h = ratio h w := by
  unfold ratio
  exact min_comm _ _

lemma imw_swap (w h : ℕ) : imw w h = imh h w := by
  unfold imw imh
  rw [ratio_comm]

lemma imh_swap (w h : ℕ) : imh w h = imw h w := by
  unfold imw imh
  rw [ratio_comm]

lemma padLeft_swap (w h : ℕ) : padLeft w h = padTop h w := by
  unfold padLeft padTop
  rw [imw_swap, imh_swap]

lemma netInputW_swap (w h : ℕ) : netInputW w h = netInputH h w := by
  unfold netInputW netInputH
  rw [imw_swap, padLeft_swap]

/-- C5 amended.  The preprocessing in `detect_objects` produces a network
input whose longer axis is exactly `img_size = 416` pixels, but whose
shorter axis is `416 - (416 - imh) % 2` pixels — that is, 415 rather than
416 whenever the rounded short side leaves an odd total padding, because
`transforms.Pad` adds `int((imw - imh)/2)` (truncated) on each side.  The
conjuncts cover a landscape/square image `(w, h)` with `h ≤ w` and the
mirrored portrait image `(h, w)`. -/
theorem c5_letterbox (w h : ℕ) (hw : 0 < w) (hh : 0 < h) (hle : h ≤ w) :
    netInputW w h = 416 ∧
    netInputH w h = 416 - (416 - imh w h) % 2 ∧
    netInputH h w = 416 ∧
    netInputW h w = 416 - (416 - imh w h) % 2 := by
  refine ⟨netInputW_eq hw hh hle, netInputH_eq hw hh hle, ?_, ?_⟩
  · rw [← netInputW_swap w h]
    exact netInputW_eq hw hh hle
  · rw [netInputW_swap h w]
    exact netInputH_eq hw hh hle

/-- Witness for C5 at the 500 × 400 image. -/
theorem c5_letterbox_witness :
    0 < 500 ∧ 0 < 400 ∧ 400 ≤ 500 ∧
    (netInputW 500 400 = 416 ∧
      netInputH 500 400 = 416 - (416 - imh 500 400) % 2 ∧
      netInputH 400 500 = 416 ∧
      netInputW 400 500 = 416 - (416 - imh 500 400) % 2) :=
  ⟨by norm_num, by norm_num, by norm_num,
    c5_letterbox 500 400 (by norm_num) (by norm_num) (by norm_num)⟩

lemma ratio_500_400 : ratio 500 400 = 104 / 125 := by
  unfold ratio img_size
  rw [min_eq_left (by norm_num)]
  norm_num

lemma imh_500_400 : imh 500 400 = 333 := by
  unfold imh
  rw [ratio_500_400, show ((400 : ℕ) : ℚ) * (104 / 125) = 1664 / 5 by norm_num]
  have := pyRound_eq_high (q := 1664 / 5) (n := 332) (by norm_num) (by norm_num)
  omega

/-- Counterexample to C5 as stated: the 500 × 400 image is resized to
416 × 333 and padded by 41 above and below, so the network input is
416 × 415, not the claimed square 416 × 416. -/
theorem c5_counterexample :
    netInputW 500 400 = 416 ∧ netInputH 500 400 = 415 ∧ ((415 : ℤ) ≠ 416) := by
  have h1 := netInputW_eq (w := 500) (h := 400) (by norm_num) (by norm_num) (by norm_num)
  have h2 := netInputH_eq (w := 500) (h := 400) (by norm_num) (by norm_num) (by norm_num)
  rw [imh_500_400] at h2
  norm_num at h2
  exact ⟨h1, h2, by norm_num⟩

/-! ## Lemmas about labels and colors -/

lemma showObjects_some (s : ℕ → ℕ) (w h : ℚ) (dets : List Det) :
    showObjects s w h (some dets) =
      if 20 < (uniqueLabels dets).length then
        .error "ValueError: Sample larger than population or is negative"
      else .ok (dets.map (mkRect s w h (uniqueLabels dets))) := rfl

lemma mem_uniqueLabels {a : ℤ} {dets : List Det} :
    a ∈ uniqueLabels dets ↔ a ∈ dets.map Det.clsPred := by
  unfold uniqueLabels
  rw [(List.perm_insertionSort _ _).mem_iff, List.mem_dedup]

lemma nodup_uniqueLabels (dets : List Det) : (uniqueLabels dets).Nodup := by
  unfold uniqueLabels
  exact ((List.perm_insertionSort _ _).nodup_iff).mpr (List.nodup_dedup _)

lemma colorsIdx_eq_range : colorsIdx = List.range 20 := by decide

lemma colorsIdx_getD {j : ℕ} (hj : j < 20) : colorsIdx.getD j 0 = j := by
  rw [colorsIdx_eq_range]
  interval_cases j <;> rfl

/-- Two labelled detections used in witnesses. -/
def detA : Det := ⟨0, 0, 50, 60, 1, 1, 3⟩

def detB : Det := ⟨10, 10, 20, 20, 1, 1, 7⟩

def dets2 : List Det := [detA, detB]

lemma uniqueLabels_dets2 : uniqueLabels dets2 = [3, 7] := by decide

/-- A detection set with 21 distinct predicted classes. -/
def bigDets : List Det := (List.range 21).map (fun k => ⟨0, 0, 10, 10, 1, 1, (k : ℤ)⟩)

lemma uniqueLabels_bigDets_length : (uniqueLabels bigDets).length = 21 := by decide

/-! ## The claims about counts, colors and state -/

/-- C3 amended.  For a non-None detection set with at most 20 unique
predicted classes, the count printed by the loop (`len(detections)`)
equals the number of rectangles `show_objects` draws; with more than 20
unique classes `show_objects` raises in `random.sample` before drawing
any rectangle, so the counts do not agree for every non-None set. -/
theorem c3_count (s : ℕ → ℕ) (w h : ℚ) (dets : List Det)
    (hcls : (uniqueLabels dets).length ≤ 20) :
    processImage s w h (some dets) =
      .ok (dets.length, dets.map (mkRect s w h (uniqueLabels dets))) ∧
    (dets.map (mkRect s w h (uniqueLabels dets))).length = dets.length := by
  have hso := showObjects_some s w h dets
  rw [if_neg (not_lt.mpr hcls)] at hso
  constructor
  · unfold processImage
    rw [hso]
    rfl
  · exact List.length_map _ _

/-- Witness for C3 on a two-detection set. -/
theorem c3_count_witness :
    (uniqueLabels dets2).length ≤ 20 ∧
    (processImage (fun i => i) 640 480 (some dets2) =
      .ok (dets2.length, dets2.map (mkRect (fun i => i) 640 480 (uniqueLabels dets2))) ∧
    (dets2.map (mkRect (fun i => i) 640 480 (uniqueLabels dets2))).length = dets2.length) :=
  ⟨by rw [uniqueLabels_dets2]; norm_num,
    c3_count (fun i => i) 640 480 dets2 (by rw [uniqueLabels_dets2]; norm_num)⟩

/-- Counterexample to C3 as stated: `detect_objects` can return a
detection set with 21 unique classes (COCO has 80), and on it
`show_objects` raises ValueError in `random.sample` before drawing any
rectangle, so 21 detections are reported but no rectangle is drawn. -/
theorem c3_counterexample :
    (detectObjects (fun _ _ => some bigDets) false ⟨[1], true, false⟩ ⟨640, 480⟩).2 =
      some bigDets ∧
    bigDets.length = 21 ∧
    showObjects (fun i => i) 640 480 (some bigDets) =
      .error "ValueError: Sample larger than population or is negative" := by
  refine ⟨rfl, by decide, ?_⟩
  rw [showObjects_some]
  rw [if_pos (by rw [uniqueLabels_bigDets_length]; norm_num)]

/-- C4.  Running `detect_objects` twice with the same image and model
gives identical detection sets: the call mutates only the model's mode
bits, never the weights the forward pass reads, and the preprocessing is
deterministic, so the second call reproduces the first. -/
theorem c4_idempotent (fwd : List ℚ → Img → Option (List Det)) (cuda : Bool)
    (m : PyModel) (img : Img) :
    (detectObjects fwd cuda (detectObjects fwd cuda m img).1 img).2 =
      (detectObjects fwd cuda m img).2 := by
  cases cuda <;> rfl

/-- C6.  With the sampled positions pairwise distinct (the semantics of
`random.sample`) and at most 20 unique classes, two detections of one
image get the same box color exactly when they share a predicted class;
the sample is indexed by the position of the class in `unique_labels` of
this image, not by the global class catalog. -/
theorem c6_colors (s : ℕ → ℕ) (w h : ℚ) (dets : List Det) (d1 d2 : Det)
    (hinj : ∀ i j, i < (uniqueLabels dets).length → j < (uniqueLabels dets).length →
      s i = s j → i = j)
    (hlt : ∀ i, i < (uniqueLabels dets).length → s i < 20)
    (h1 : d1 ∈ dets) (h2 : d2 ∈ dets) :
    ((mkRect s w h (uniqueLabels dets) d1).color =
        (mkRect s w h (uniqueLabels dets) d2).color ↔
      d1.clsPred = d2.clsPred) := by
  have hm1 : d1.clsPred ∈ uniqueLabels dets :=
    mem_uniqueLabels.mpr (List.mem_map_of_mem _ h1)
  have hm2 : d2.clsPred ∈ uniqueLabels dets :=
    mem_uniqueLabels.mpr (List.mem_map_of_mem _ h2)
  have hi1 : (uniqueLabels dets).indexOf d1.clsPred < (uniqueLabels dets).length :=
    List.indexOf_lt_length.mpr hm1
  have hi2 : (uniqueLabels dets).indexOf d2.clsPred < (uniqueLabels dets).length :=
    List.indexOf_lt_length.mpr hm2
  constructor
  · intro hcol
    have hcol2 : colorsIdx.getD (s ((uniqueLabels dets).indexOf d1.clsPred)) 0 =
        colorsIdx.getD (s ((uniqueLabels dets).indexOf d2.clsPred)) 0 := hcol
    rw [colorsIdx_getD (hlt _ hi1), colorsIdx_getD (hlt _ hi2)] at hcol2
    exact (List.indexOf_inj hm1 hm2).mp (hinj _ _ hi1 hi2 hcol2)
  · intro hcls
    show colorsIdx.getD (s ((uniqueLabels dets).indexOf d1.clsPred)) 0 =
      colorsIdx.getD (s ((uniqueLabels dets).indexOf d2.clsPred)) 0
    rw [hcls]

/-- Witness for C6 with the identity sample on a two-class detection set. -/
theorem c6_colors_witness :
    ((mkRect (fun i => i) 640 480 (uniqueLabels dets2) detA).color =
        (mkRect (fun i => i) 640 480 (uniqueLabels dets2) detB).color ↔
      detA.clsPred = detB.clsPred) :=
  c6_colors (fun i => i) 640 480 dets2 detA detB
    (fun _ _ _ _ hij => hij)
    (fun i hi => lt_of_lt_of_le hi (by rw [uniqueLabels_dets2]; norm_num))
    (List.mem_cons_self _ _)
    (List.mem_cons_of_mem _ (List.mem_cons_self _ _))

/-- C8 amended.  `detect_objects` never touches the weights, but it does
mutate the model object: `model.eval()` clears the training flag (and
`model.cuda()` moves the model when a GPU is available), so the model is
not identical before and after the first call.  After that first call the
model state is a fixed point of every further call. -/
theorem c8_model_state (fwd : List ℚ → Img → Option (List Det)) (cuda : Bool)
    (m : PyModel) (img img2 : Img) :
    (detectObjects fwd cuda m img).1.weights = m.weights ∧
    (detectObjects fwd cuda (detectObjects fwd cuda m img).1 img2).1 =
      (detectObjects fwd cuda m img).1 := by
  cases cuda <;> exact ⟨rfl, rfl⟩

/-- Counterexample to C8 as stated: a freshly loaded model has
`training = True`; after one call to `detect_objects` the flag is False,
so the model is not left unchanged by each call. -/
theorem c8_counterexample :
    (detectObjects (fun _ _ => none) false ⟨[1], true, false⟩ ⟨640, 480⟩).1 ≠
      (⟨[1], true, false⟩ : PyModel) := by
  intro hcon
  have h1 : (detectObjects (fun _ _ => none) false ⟨[1], true, false⟩ ⟨640, 480⟩).1.training
      = false := rfl
  rw [hcon] at h1
  simp at h1

/-- C9.  When no detection passes the confidence threshold,
`detect_objects` returns None and the loop's
`print(... len(detections) ...)` raises TypeError before reaching
`show_objects` — even though `show_objects` itself guards None and would
have drawn nothing. -/
theorem c9_none_crashes :
    processImage (fun i => i) 640 480 none =
      .error "TypeError: object of type NoneType has no len()" ∧
    showObjects (fun i => i) 640 480 none = .ok [] :=
  ⟨rfl, rfl⟩

/-- C10.  The palette has exactly 20 colors, and `show_objects` on a
non-None detection set raises (in `random.sample`, before drawing any
rectangle) precisely when the number of unique predicted classes exceeds
20; with at most 20 unique classes drawing succeeds. -/
theorem c10_palette (s : ℕ → ℕ) (w h : ℚ) (dets : List Det) :
    colorsIdx.length = 20 ∧
    ((∃ e, showObjects s w h (some dets) = .error e) ↔
      20 < (uniqueLabels dets).length) := by
  refine ⟨by decide, ?_⟩
  rw [showObjects_some]
  by_cases hc : 20 < (uniqueLabels dets).length
  · rw [if_pos hc]
    exact ⟨fun _ => hc, fun _ => ⟨_, rfl⟩⟩
  · rw [if_neg hc]
    exact ⟨fun ⟨_, he⟩ => Except.noConfusion he, fun hcon => absurd hcon hc⟩

end Yolo
